import Mathlib

/-!
Shallow embedding of `keystroke_auth.py`, the biometric matching core of a
keystroke-dynamics authentication program.  Python floats are modelled as
rationals (`ℚ`); Python `None` results are modelled with `Option`; the
special value `float('inf')` returned by the matcher is modelled by a
dedicated `Score` type; the JSON profile file is modelled by a `FileState`
that is either absent, unreadable/unparseable, or a parsed name-to-vector
mapping.
-/

/-- The fixed password, `PASSWORD = "secret"` in the source. -/
def PASSWORD : String := "secret"

/-- `statistics.mean` on a list of rationals (sum divided by length;
the Python version is only ever called on non-empty lists). -/
def listMean (l : List ℚ) : ℚ := l.sum / l.length

/-- Embedding of `extract_features(typed, press_times, release_times)`:
`None` when the typed text differs from the password or either timestamp
list is shorter than the password; otherwise the list of the `n` dwell
times `release[i] - press[i]` followed by the `n-1` flight times
`press[i] - press[i-1]` for `i` in `range(1, n)`. -/
def extract_features (typed : String) (press_times release_times : List ℚ) :
    Option (List ℚ) :=
  if typed ≠ PASSWORD then none
  else
    let n := PASSWORD.length
    if press_times.length < n ∨ release_times.length < n then none
    else
      let dwell := (List.range n).map
        (fun i => release_times.getD i 0 - press_times.getD i 0)
      let flight := (List.range' 1 (n - 1)).map
        (fun i => press_times.getD i 0 - press_times.getD (i - 1) 0)
      some (dwell ++ flight)

/-- The matcher's score: a finite mean difference, or `float('inf')` for
incomparable inputs. -/
inductive Score where
  | inf : Score
  | val : ℚ → Score
  deriving DecidableEq

/-- Embedding of `compare_features(f1, f2)`: `float('inf')` when either
argument is `None` or the lengths differ, otherwise the mean of the
per-dimension absolute differences. -/
def compare_features (f1 f2 : Option (List ℚ)) : Score :=
  match f1, f2 with
  | some v1, some v2 =>
      if v1.length = v2.length then
        Score.val (listMean (List.zipWith (fun a b => |a - b|) v1 v2))
      else Score.inf
  | _, _ => Score.inf

/-- The Python comparison `score <= threshold`, where `score` may be
`float('inf')` (which compares greater than every finite threshold). -/
def score_le (s : Score) (t : ℚ) : Bool :=
  match s with
  | Score.inf => false
  | Score.val q => decide (q ≤ t)

/-- The default threshold of `interactive_test(name, threshold=0.10)`. -/
def default_threshold : ℚ := 10 / 100

/-- Embedding of `average_samples(samples)`: `None` for an empty list or
when some sample's length differs from the first sample's length,
otherwise the per-dimension arithmetic mean. -/
def average_samples (samples : List (List ℚ)) : Option (List ℚ) :=
  match samples with
  | [] => none
  | s0 :: rest =>
      if (s0 :: rest).all (fun s => s.length == s0.length) then
        some ((List.range s0.length).map
          (fun i => listMean ((s0 :: rest).map (fun s => s.getD i 0))))
      else none

/-- The contents of `profiles.json`: may hold a vector, or JSON `null`
(Python `None`), for each name. -/
abbrev StoreData := List (String × Option (List ℚ))

/-- State of the profile file on disk: missing, present but failing to
parse as JSON, or parsed into a name-to-payload mapping. -/
inductive FileState where
  | absent : FileState
  | corrupt : FileState
  | content : StoreData → FileState
  deriving DecidableEq

/-- Python `dict.get(name)`: the payload of the first entry for `name`,
`None` when the name is missing or its stored payload is JSON `null`. -/
def storeGet (data : StoreData) (name : String) : Option (List ℚ) :=
  match data.find? (fun p => p.1 == name) with
  | none => none
  | some p => p.2

/-- Python `data[name] = features` on a JSON-object dict: replace the
entry for `name` when present, otherwise append a new entry. -/
def storeSet (data : StoreData) (name : String) (v : Option (List ℚ)) :
    StoreData :=
  if data.any (fun p => p.1 == name) then
    data.map (fun p => if p.1 == name then (name, v) else p)
  else data ++ [(name, v)]

/-- Embedding of `save_profile(name, features)`: start from the parsed
file when it exists and parses, from the empty dict otherwise (the
`except` branch), set the entry and write the result back. -/
def save_profile (store : FileState) (name : String)
    (features : Option (List ℚ)) : FileState :=
  let data : StoreData :=
    match store with
    | FileState.absent => []
    | FileState.corrupt => []
    | FileState.content d => d
  FileState.content (storeSet data name features)

/-- Embedding of `load_profile(name)`: `None` when the file is missing or
fails to parse (the `except` branch), otherwise `dict.get(name)`. -/
def load_profile (store : FileState) (name : String) : Option (List ℚ) :=
  match store with
  | FileState.absent => none
  | FileState.corrupt => none
  | FileState.content d => storeGet d name

/-- Outcome of one verification attempt in `interactive_test`: the
"Profile not found." return, the "Typed text did not match password."
return, or a decision with its reported score. -/
inductive VerifyResult where
  | profileNotFound : VerifyResult
  | formatMismatch : VerifyResult
  | accessGranted : Score → VerifyResult
  | accessDenied : Score → VerifyResult
  deriving DecidableEq

/-- Embedding of `interactive_test(name, threshold)`: load the profile
(reject with a distinct reason when absent), extract features from the
captured attempt (reject when extraction fails), then compare and decide
by `score <= threshold`. -/
def interactive_test (store : FileState) (name : String) (typed : String)
    (press release : List ℚ) (threshold : ℚ) : VerifyResult :=
  match load_profile store name with
  | none => VerifyResult.profileNotFound
  | some stored =>
      match extract_features typed press release with
      | none => VerifyResult.formatMismatch
      | some features =>
          let s := compare_features (some stored) (some features)
          if score_le s threshold then VerifyResult.accessGranted s
          else VerifyResult.accessDenied s

/-- One capture attempt as delivered by the capture port: the typed text
and the parallel press/release timestamp lists. -/
structure Capture where
  typed : String
  press : List ℚ
  release : List ℚ
  deriving DecidableEq

/-- The sample-collection loop of `interactive_register`: extract features
from each capture in order, stopping with `None` at the first capture
whose extraction fails. -/
def collect_samples : List Capture → Option (List (List ℚ))
  | [] => some []
  | c :: rest =>
      match extract_features c.typed c.press c.release with
      | none => none
      | some f => (collect_samples rest).map (fun fs => f :: fs)

/-- Embedding of `interactive_register(name)` run on a given list of
captures: abort (returning the unchanged store and `False`) when any
extraction fails, otherwise average the samples and save the profile. -/
def interactive_register (store : FileState) (name : String)
    (caps : List Capture) : FileState × Bool :=
  match collect_samples caps with
  | none => (store, false)
  | some samples => (save_profile store name (average_samples samples), true)

/-- The reference profile named in the spec's 1.3×-scaling example. -/
def ref_profile : List ℚ :=
  [8/100, 9/100, 7/100, 10/100, 9/100, 8/100, 12/100, 11/100, 10/100,
   14/100, 13/100]

/-- The candidate vector equal to 1.3 times the reference profile. -/
def candidate_scaled : List ℚ := ref_profile.map (fun v => 13 / 10 * v)

/-- The feature vector as the spec prescribes it for the fixed password of
length 6: six dwell entries `release[i] - press[i]` followed by five
flight entries `press[i] - press[i-1]`. -/
def spec_feature_vector (press release : List ℚ) : List ℚ :=
  [release.getD 0 0 - press.getD 0 0, release.getD 1 0 - press.getD 1 0,
   release.getD 2 0 - press.getD 2 0, release.getD 3 0 - press.getD 3 0,
   release.getD 4 0 - press.getD 4 0, release.getD 5 0 - press.getD 5 0,
   press.getD 1 0 - press.getD 0 0, press.getD 2 0 - press.getD 1 0,
   press.getD 3 0 - press.getD 2 0, press.getD 4 0 - press.getD 3 0,
   press.getD 5 0 - press.getD 4 0]

/-- A capture attempt whose typed text matches the password. -/
def good_capture : Capture :=
  { typed := "secret", press := [0, 1, 2, 3, 4, 5],
    release := [1, 2, 3, 4, 5, 6] }

/-- A capture attempt whose typed text does not match the password. -/
def bad_capture : Capture :=
  { typed := "wrong", press := [0, 1, 2, 3, 4, 5],
    release := [1, 2, 3, 4, 5, 6] }

theorem password_length : PASSWORD.length = 6 := rfl

/-- Claim C1: the spec asserts that for the reference profile and a
candidate equal to 1.3 times it, the per-dimension absolute differences
average above 0.10 and verification at the default threshold REJECTs.
In fact the mean absolute difference is 333/11000 ≈ 0.0303, which is not
above 0.10, and the decision `score <= threshold` ACCEPTs. -/
theorem claim1_counterexample :
    compare_features (some ref_profile) (some candidate_scaled) =
      Score.val (333 / 11000) ∧
    ¬ (1 / 10 : ℚ) < 333 / 11000 ∧
    score_le (compare_features (some ref_profile) (some candidate_scaled))
      default_threshold = true := by
  have h : compare_features (some ref_profile) (some candidate_scaled) =
      Score.val (333 / 11000) := by
    norm_num [compare_features, ref_profile, candidate_scaled, listMean,
      abs_of_nonneg]
  refine ⟨h, by norm_num, ?_⟩
  rw [h]
  norm_num [score_le, default_threshold]

/-- Claim C1, amended: for the reference profile and a candidate equal to
1.3 times it, the per-dimension absolute differences average 333/11000,
which is at most the default threshold 0.10, so verification of that
candidate against that profile at the default threshold yields ACCEPT. -/
theorem claim1_amended :
    compare_features (some ref_profile) (some candidate_scaled) =
      Score.val (333 / 11000) ∧
    (333 / 11000 : ℚ) ≤ default_threshold ∧
    score_le (Score.val (333 / 11000)) default_threshold = true := by
  refine ⟨?_, by norm_num [default_threshold], ?_⟩
  · norm_num [compare_features, ref_profile, candidate_scaled, listMean,
      abs_of_nonneg]
  · norm_num [score_le, default_threshold]

/-- Claim C6: the decision accepts a finite score `s` at threshold `t`
exactly when `s ≤ t` (inclusive boundary); the default threshold is 0.10;
when either vector is absent or the lengths differ the score is infinite;
and an infinite score is rejected at every threshold. -/
theorem claim6_matcher :
    (∀ q t : ℚ, score_le (Score.val q) t = true ↔ q ≤ t) ∧
    default_threshold = 1 / 10 ∧
    (∀ f1 f2 : Option (List ℚ),
      (f1 = none ∨ f2 = none ∨
        ∃ v1 v2, f1 = some v1 ∧ f2 = some v2 ∧ v1.length ≠ v2.length) →
      compare_features f1 f2 = Score.inf) ∧
    (∀ t : ℚ, score_le Score.inf t = false) := by
  refine ⟨fun q t => by simp [score_le], by norm_num [default_threshold],
    ?_, fun t => rfl⟩
  rintro f1 f2 (rfl | rfl | ⟨v1, v2, rfl, rfl, hne⟩)
  · rfl
  · cases f1 <;> rfl
  · simp [compare_features, hne]

theorem claim6_witness :
    score_le (Score.val 1) 2 = true ∧
    compare_features (some [1]) none = Score.inf :=
  ⟨(claim6_matcher.1 1 2).mpr (by norm_num),
   claim6_matcher.2.2.1 (some [1]) none (Or.inr (Or.inl rfl))⟩

/-- Claim C4: verifying a name with no stored profile yields the
"Profile not found." outcome, which is distinct from the format-mismatch
outcome and never grants access; `interactive_test` is a total function,
so the attempt cannot crash. -/
theorem claim4_unknown_identity (store : FileState) (name typed : String)
    (press release : List ℚ) (t : ℚ)
    (h : load_profile store name = none) :
    interactive_test store name typed press release t =
      VerifyResult.profileNotFound ∧
    VerifyResult.profileNotFound ≠ VerifyResult.formatMismatch ∧
    ∀ s, VerifyResult.profileNotFound ≠ VerifyResult.accessGranted s := by
  refine ⟨?_, by simp, fun s => by simp⟩
  simp [interactive_test, h]

theorem claim4_witness :
    interactive_test FileState.absent "alice" "secret" [] [] (1 / 10) =
      VerifyResult.profileNotFound :=
  (claim4_unknown_identity FileState.absent "alice" "secret" [] [] (1 / 10)
    rfl).1

/-- Claim C9: with an unreadable/unparseable profile file, loading any
name yields `none` exactly as with a missing file, and saving still
succeeds, producing the same store a save onto an empty store produces. -/
theorem claim9_corrupt_store (name : String) (v : Option (List ℚ)) :
    load_profile FileState.corrupt name = none ∧
    load_profile FileState.absent name = none ∧
    save_profile FileState.corrupt name v =
      save_profile FileState.absent name v ∧
    save_profile FileState.corrupt name v =
      FileState.content [(name, v)] := by
  refine ⟨rfl, rfl, rfl, ?_⟩
  simp [save_profile, storeSet]

/-- Claim C7: averaging fails (returns `none`, never a partial result)
on the empty list and whenever two samples have different lengths. -/
theorem claim7_unequal_lengths (samples : List (List ℚ))
    (h : samples = [] ∨
      ∃ s1 ∈ samples, ∃ s2 ∈ samples, s1.length ≠ s2.length) :
    average_samples samples = none := by
  match samples with
  | [] => rfl
  | s0 :: rest =>
    rcases h with h | ⟨s1, hs1, s2, hs2, hne⟩
    · exact absurd h (by simp)
    · by_cases hall : (s0 :: rest).all (fun s => s.length == s0.length) = true
      · rw [List.all_eq_true] at hall
        have h1 := hall s1 hs1
        have h2 := hall s2 hs2
        simp only [beq_iff_eq] at h1 h2
        exact absurd (h1.trans h2.symm) hne
      · exact if_neg hall

theorem claim7_witness : average_samples [[1], [1, 2]] = none :=
  claim7_unequal_lengths [[1], [1, 2]]
    (Or.inr ⟨[1], by simp, [1, 2], by simp, by simp⟩)

theorem spec_feature_vector_length (press release : List ℚ) :
    (spec_feature_vector press release).length = 2 * PASSWORD.length - 1 :=
  rfl

/-- Claim C2: `extract_features` returns `none` exactly when the typed
text differs from the password or either timestamp list has fewer than
`k` entries (`k` the password length); otherwise it returns the vector of
`k` dwell entries `release[i] - press[i]` followed by the `k-1` flight
entries `press[i] - press[i-1]`, of length `2k-1`, consuming only the
first `k` entries of each timestamp list. -/
theorem claim2_extract_spec (typed : String) (press release : List ℚ) :
    (extract_features typed press release = none ↔
      typed ≠ PASSWORD ∨ press.length < PASSWORD.length ∨
        release.length < PASSWORD.length) ∧
    (typed = PASSWORD → PASSWORD.length ≤ press.length →
      PASSWORD.length ≤ release.length →
      extract_features typed press release =
        some (spec_feature_vector press release)) := by
  constructor
  · by_cases ht : typed = PASSWORD
    · subst ht
      by_cases hl : press.length < PASSWORD.length ∨
          release.length < PASSWORD.length
      · have : extract_features PASSWORD press release = none := by
          unfold extract_features
          rw [if_neg (fun hh => hh rfl), if_pos hl]
        simp [this, hl]
      · have : extract_features PASSWORD press release =
            some (spec_feature_vector press release) := by
          unfold extract_features
          rw [if_neg (fun hh => hh rfl), if_neg hl]
          rfl
        rw [this]
        simp only [ne_eq, not_true_eq_false, false_or]
        constructor
        · intro h; exact absurd h (by simp)
        · intro h; exact absurd h hl
    · have : extract_features typed press release = none := by
        unfold extract_features
        rw [if_pos ht]
      simp [this, ht]
  · intro ht hp hr
    subst ht
    have hl : ¬ (press.length < PASSWORD.length ∨
        release.length < PASSWORD.length) := by
      push_neg
      exact ⟨hp, hr⟩
    unfold extract_features
    rw [if_neg (fun hh => hh rfl), if_neg hl]
    rfl

theorem claim2_witness :
    extract_features "secret" [0, 1, 2, 3, 4, 5] [1, 2, 3, 4, 5, 6] =
      some [1, 1, 1, 1, 1, 1, 1, 1, 1, 1, 1] := by
  have h := (claim2_extract_spec "secret" [0, 1, 2, 3, 4, 5]
    [1, 2, 3, 4, 5, 6]).2 rfl (by norm_num [password_length])
    (by norm_num [password_length])
  rw [h]
  norm_num [spec_feature_vector]

theorem collect_samples_eq_none (caps : List Capture)
    (h : ∃ c ∈ caps, extract_features c.typed c.press c.release = none) :
    collect_samples caps = none := by
  induction caps with
  | nil => simp at h
  | cons c rest ih =>
      obtain ⟨d, hd, hnone⟩ := h
      rcases List.mem_cons.mp hd with rfl | hmem
      · simp [collect_samples, hnone]
      · cases hx : extract_features c.typed c.press c.release with
        | none => simp [collect_samples, hx]
        | some f => simp [collect_samples, hx, ih ⟨d, hmem, hnone⟩]

/-- Claim C3: an enrollment run whose captures include one with a failed
extraction aborts with the store unchanged — `save_profile` is never
reached — so a name not previously enrolled still loads as `none`
afterwards. -/
theorem claim3_abort (store : FileState) (name : String)
    (caps : List Capture) (_hlen : caps.length = 3)
    (hfail : ∃ c ∈ caps, extract_features c.typed c.press c.release = none) :
    interactive_register store name caps = (store, false) ∧
    (load_profile store name = none →
      load_profile (interactive_register store name caps).1 name = none) := by
  have hc := collect_samples_eq_none caps hfail
  refine ⟨?_, ?_⟩
  · simp [interactive_register, hc]
  · intro h0
    simp [interactive_register, hc, h0]

theorem claim3_witness :
    interactive_register FileState.absent "bob"
      [good_capture, bad_capture, good_capture] = (FileState.absent, false) ∧
    load_profile
      (interactive_register FileState.absent "bob"
        [good_capture, bad_capture, good_capture]).1 "bob" = none := by
  have h := claim3_abort FileState.absent "bob"
    [good_capture, bad_capture, good_capture] rfl
    ⟨bad_capture, by simp, by
      have hb : bad_capture.typed ≠ PASSWORD := by decide
      simp [extract_features, hb]⟩
  exact ⟨h.1, h.2 rfl⟩

theorem map_range_getD (v : List ℚ) :
    (List.range v.length).map (fun i => v.getD i 0) = v := by
  induction v with
  | nil => rfl
  | cons a t ih =>
      have hcomp : ((fun i => (a :: t).getD i 0) ∘ Nat.succ) =
          (fun i : ℕ => t.getD i 0) := by
        funext i
        simp
      rw [List.length_cons, List.range_succ_eq_map, List.map_cons,
        List.map_map, hcomp, ih, List.getD_cons_zero]

/-- Claim C8: averaging `N ≥ 1` identical copies of a vector returns that
vector unchanged. -/
theorem claim8_idempotent (v : List ℚ) (N : ℕ) (h : 1 ≤ N) :
    average_samples (List.replicate N v) = some v := by
  obtain ⟨M, rfl⟩ : ∃ M, N = M + 1 := ⟨N - 1, by omega⟩
  rw [List.replicate_succ]
  have hall : ((v :: List.replicate M v).all
      (fun s => s.length == v.length)) = true := by
    rw [List.all_eq_true]
    intro s hs
    rcases List.mem_cons.mp hs with rfl | hs
    · simp
    · rw [List.eq_of_mem_replicate hs]
      simp
  have hmean : ∀ i : ℕ,
      listMean ((v :: List.replicate M v).map (fun s => s.getD i 0)) =
        v.getD i 0 := by
    intro i
    rw [List.map_cons, List.map_replicate, ← List.replicate_succ]
    unfold listMean
    rw [List.sum_replicate, List.length_replicate, nsmul_eq_mul]
    rw [mul_div_cancel_left₀]
    exact Nat.cast_ne_zero.mpr (Nat.succ_ne_zero M)
  show (if ((v :: List.replicate M v).all
      (fun s => s.length == v.length)) = true then
        some ((List.range v.length).map
          (fun i => listMean ((v :: List.replicate M v).map
            (fun s => s.getD i 0))))
      else none) = some v
  rw [if_pos hall]
  simp only [hmean]
  rw [map_range_getD]

theorem claim8_witness :
    average_samples (List.replicate 3 [1 / 2, (2 : ℚ)]) =
      some [1 / 2, (2 : ℚ)] :=
  claim8_idempotent [1 / 2, (2 : ℚ)] 3 (by norm_num)

theorem chain'_getD_le (l : List ℚ) (hl : List.Chain' (fun a b => a ≤ b) l)
    (i : ℕ) (h1 : 1 ≤ i) (h2 : i < l.length) :
    l.getD (i - 1) 0 ≤ l.getD i 0 := by
  obtain ⟨j, rfl⟩ : ∃ j, i = j + 1 := ⟨i - 1, by omega⟩
  have h3 : j < l.length - 1 := by omega
  have hc := List.chain'_iff_get.mp hl j h3
  simp only [List.get_eq_getElem] at hc
  rw [Nat.add_sub_cancel,
    List.getD_eq_getElem l 0 (show j < l.length by omega),
    List.getD_eq_getElem l 0 h2]
  exact hc

/-- Claim C5, counterexample: with both timestamp sequences monotonically
non-decreasing (press `[1..6]`, release `[0..5]`), extraction succeeds
yet produces the negative dwell entry `-1`, so monotonicity of each
sequence alone does not make every feature entry non-negative. -/
theorem claim5_counterexample :
    List.Chain' (fun a b : ℚ => a ≤ b) [1, 2, 3, 4, 5, 6] ∧
    List.Chain' (fun a b : ℚ => a ≤ b) [0, 1, 2, 3, 4, 5] ∧
    extract_features "secret" [1, 2, 3, 4, 5, 6] [0, 1, 2, 3, 4, 5] =
      some [-1, -1, -1, -1, -1, -1, 1, 1, 1, 1, 1] ∧
    (-1 : ℚ) ∈ [(-1 : ℚ), -1, -1, -1, -1, -1, 1, 1, 1, 1, 1] ∧
    ¬ (0 : ℚ) ≤ -1 := by
  refine ⟨by norm_num, by norm_num, ?_, by norm_num, by norm_num⟩
  have h : extract_features "secret" [1, 2, 3, 4, 5, 6] [0, 1, 2, 3, 4, 5] =
      some [(0 : ℚ) - 1, 1 - 2, 2 - 3, 3 - 4, 4 - 5, 5 - 6,
        2 - 1, 3 - 2, 4 - 3, 5 - 4, 6 - 5] := rfl
  rw [h]
  norm_num

/-- Claim C5, amended: when the press-time and release-time sequences are
each monotonically non-decreasing and, additionally, each press time is
at most the matching release time (`press[i] ≤ release[i]` for `i` below
the password length), every entry of a successfully extracted feature
vector is non-negative. -/
theorem claim5_amended (typed : String) (press release : List ℚ)
    (v : List ℚ)
    (hp : List.Chain' (fun a b : ℚ => a ≤ b) press)
    (_hr : List.Chain' (fun a b : ℚ => a ≤ b) release)
    (hpr : ∀ i < PASSWORD.length, press.getD i 0 ≤ release.getD i 0)
    (hv : extract_features typed press release = some v) :
    ∀ x ∈ v, 0 ≤ x := by
  unfold extract_features at hv
  by_cases ht : typed ≠ PASSWORD
  · rw [if_pos ht] at hv
    exact absurd hv (by simp)
  · rw [if_neg ht] at hv
    by_cases hl : press.length < PASSWORD.length ∨
        release.length < PASSWORD.length
    · rw [if_pos hl] at hv
      exact absurd hv (by simp)
    · rw [if_neg hl] at hv
      push_neg at hl
      obtain ⟨hplen, hrlen⟩ := hl
      have hv' := Option.some.inj hv
      intro x hx
      rw [← hv'] at hx
      rcases List.mem_append.mp hx with hx | hx
      · obtain ⟨i, hi, rfl⟩ := List.mem_map.mp hx
        rw [List.mem_range] at hi
        exact sub_nonneg.mpr (hpr i hi)
      · obtain ⟨i, hi, rfl⟩ := List.mem_map.mp hx
        rw [List.mem_range'] at hi
        obtain ⟨j, hj, rfl⟩ := hi
        have h6 := password_length
        refine sub_nonneg.mpr (chain'_getD_le press hp (1 + 1 * j)
          (by omega) (by omega))

theorem claim5_witness :
    extract_features "secret" [0, 1, 2, 3, 4, 5] [1, 2, 3, 4, 5, 6] =
      some [1, 1, 1, 1, 1, 1, 1, 1, 1, 1, 1] ∧
    (0 : ℚ) ≤ 1 := by
  have h : extract_features "secret" [0, 1, 2, 3, 4, 5] [1, 2, 3, 4, 5, 6] =
      some [(1 : ℚ) - 0, 2 - 1, 3 - 2, 4 - 3, 5 - 4, 6 - 5,
        1 - 0, 2 - 1, 3 - 2, 4 - 3, 5 - 4] := rfl
  have hlist : ([(1 : ℚ) - 0, 2 - 1, 3 - 2, 4 - 3, 5 - 4, 6 - 5,
      1 - 0, 2 - 1, 3 - 2, 4 - 3, 5 - 4] : List ℚ) =
      [1, 1, 1, 1, 1, 1, 1, 1, 1, 1, 1] := by norm_num
  refine ⟨by rw [h, hlist], ?_⟩
  refine claim5_amended "secret" [0, 1, 2, 3, 4, 5] [1, 2, 3, 4, 5, 6]
    [1, 1, 1, 1, 1, 1, 1, 1, 1, 1, 1] (by norm_num) (by norm_num) ?_
    (by rw [h, hlist]) 1 (by norm_num)
  intro i hi
  rw [password_length] at hi
  interval_cases i <;> norm_num

theorem find?_update_ne (X Y : String) (v : Option (List ℚ)) (h : Y ≠ X) :
    ∀ data : StoreData,
      (data.map (fun p => if p.1 == X then (X, v) else p)).find?
          (fun p => p.1 == Y) =
        data.find? (fun p => p.1 == Y)
  | [] => rfl
  | a :: t => by
      have hxy : (X == Y) = false := beq_eq_false_iff_ne.mpr (Ne.symm h)
      by_cases ha : (a.1 == X) = true
      · have ha' : a.1 = X := beq_iff_eq.mp ha
        have hay : (a.1 == Y) = false := by
          rw [ha']
          exact hxy
        rw [List.map_cons, if_pos ha,
          List.find?_cons_of_neg _ (by simp [hxy]),
          List.find?_cons_of_neg _ (by simp [hay])]
        exact find?_update_ne X Y v h t
      · rw [List.map_cons, if_neg ha]
        by_cases hay : (a.1 == Y) = true
        · rw [@List.find?_cons_of_pos _ (fun p => p.1 == Y) a _ hay,
            @List.find?_cons_of_pos _ (fun p => p.1 == Y) a t hay]
        · rw [List.find?_cons_of_neg _ (by simpa using hay),
            List.find?_cons_of_neg _ (by simpa using hay)]
          exact find?_update_ne X Y v h t

/-- Claim C10: saving a profile under one name leaves the stored profile
of every other name unchanged in a parseable store. -/
theorem claim10_frame (data : StoreData) (X : String) (v : Option (List ℚ))
    (Y : String) (h : Y ≠ X) :
    load_profile (save_profile (FileState.content data) X v) Y =
      load_profile (FileState.content data) Y := by
  show storeGet (storeSet data X v) Y = storeGet data Y
  unfold storeSet
  by_cases hmem : (data.any fun p => p.1 == X) = true
  · rw [if_pos hmem]
    unfold storeGet
    rw [find?_update_ne X Y v h data]
  · rw [if_neg hmem]
    unfold storeGet
    rw [List.find?_append]
    have hone : (([(X, v)] : StoreData).find? fun p => p.1 == Y) = none := by
      rw [List.find?_cons_of_neg _
        (by simpa using beq_eq_false_iff_ne.mpr (Ne.symm h))]
      rfl
    rw [hone, Option.or_none]

theorem claim10_witness :
    load_profile
      (save_profile (FileState.content [("a", some [1]), ("b", some [2])])
        "a" (some [3])) "b" = some [2] := by
  rw [claim10_frame [("a", some [1]), ("b", some [2])] "a" (some [3]) "b"
    (by decide)]
  rfl
